import Mathlib

/-!
A shallow embedding of the `an-ci` task-execution engine (`an-ci.py`):
the nested-list command model and its flattening (`_unroll`), the
`shellescape`-based serializer and session input script (`_make_bash`),
the drain/interrupt loop of `DockerTask.execute`, the user-provisioning
step (`_prepare_user`), the local executor (`call_command`) and the
top-level workflow driver (`main`), together with theorems checking the
specification's claims against these definitions.
-/

namespace AnCi

/-- Characters the `shellescape` library (compiled with `re.ASCII`) treats as
safe: ASCII letters, digits, and the characters underscore, at-sign, percent,
plus, equals, colon, comma, dot, slash and hyphen; any other character makes
the string unsafe and forces quoting. -/
def safeChar (c : Char) : Bool :=
  c.isAlpha || c.isDigit || c = '_' || c = '@' || c = '%' || c = '+' ||
  c = '=' || c = ':' || c = ',' || c = '.' || c = '/' || c = '-'

/-- The single-quote expansion performed by `shellescape.quote`: each inner
single quote is replaced by the five characters quote, double-quote, quote,
double-quote, quote (close the quoted span, emit a double-quoted quote,
reopen). All other characters are kept as they are. -/
def escQuote (c : Char) : List Char :=
  if c = '\'' then ['\'', '"', '\'', '"', '\''] else [c]

/-- Character-level body of `shellescape.quote`: the empty string becomes two
quotes, a fully safe string is returned unchanged, and anything else is
wrapped in single quotes with inner single quotes expanded by `escQuote`. -/
def quoteC (s : List Char) : List Char :=
  if s = [] then ['\'', '\'']
  else if s.all safeChar then s
  else '\'' :: (s.flatMap escQuote ++ ['\''])

/-- `shellescape.quote`, as used by `DockerTask._make_bash`. -/
def quote (s : String) : String := String.mk (quoteC s.toList)

/-- A command value as parsed from the YAML configuration: either a plain
string token, or a (possibly nested) Python list of command values. -/
inductive Cmd where
  | leaf : String → Cmd
  | seq : List Cmd → Cmd

mutual

/-- `_unroll`: the depth-first, order-preserving flattening of a nested
command list into its string tokens. -/
def unroll : Cmd → List String
  | .leaf s => [s]
  | .seq cs => unrollList cs

/-- `_unroll` iterated over the elements of a list node, in order. -/
def unrollList : List Cmd → List String
  | [] => []
  | c :: cs => unroll c ++ unrollList cs

end

/-- `isolate_command_constructor` (the `!isolate` YAML tag): wraps the parsed
sequence between a left-parenthesis token and a right-parenthesis token. -/
def isolate_command_constructor (cs : List Cmd) : Cmd :=
  .seq [.leaf "(", .seq cs, .leaf ")"]

/-- `and_command_constructor` (the `!and` YAML tag): the two-element list
whose first element is the `&&` token and whose second is the parsed
sequence. -/
def and_command_constructor (cs : List Cmd) : Cmd :=
  .seq [.leaf "&&", .seq cs]

/-- `pipe_command_constructor` (the `!pipe` YAML tag): the two-element list
whose first element is the `|` token and whose second is the parsed
sequence. -/
def pipe_command_constructor (cs : List Cmd) : Cmd :=
  .seq [.leaf "|", .seq cs]

/-- Python's `str.join` with a single-space separator. -/
def join_sp : List String → String
  | [] => ""
  | [x] => x
  | x :: xs => x ++ " " ++ join_sp xs

/-- The per-command serialization performed in `DockerTask._make_bash`:
join, with single spaces, the `shellescape.quote` of every token of the
flattened command. -/
def serialize_command (c : Cmd) : String := join_sp ((unroll c).map quote)

/-- `DockerTask._make_bash`: the complete input script fed to the session,
as the ordered list of strings put on the input queue — the quoted `set -e`
line, one serialized newline-terminated line per command, and the quoted
`exit` line.  The whole list is built before the session process starts. -/
def make_bash (cs : List Cmd) : List String :=
  "'set' '-e'\n" :: cs.map (fun c => serialize_command c ++ "\n") ++ ["'exit'\n"]

/-- Lexer state of the POSIX-shell line reader model: outside quotes, inside
a single-quoted span, inside a double-quoted span. -/
inductive ShState where
  | norm
  | sq
  | dq

/-- A word-level model of how a POSIX shell reads one input line as a single
simple command: split on unquoted spaces, remove quotes, keep quoted
characters literal.  The result is `none` when the line is NOT one simple
command made of literal words — an unquoted metacharacter (shell operator or
expansion trigger, e.g. bare `&`, `|`, `$`, parentheses), an expansion inside
double quotes, or an unterminated quote.  Arguments: remaining characters,
lexer state, characters of the current word, whether the current word has
started (so that an empty quoted span still yields an empty word). -/
def tok : List Char → ShState → List Char → Bool → Option (List (List Char))
  | [], .norm, cur, started => if started then some [cur] else some []
  | [], .sq, _, _ => none
  | [], .dq, _, _ => none
  | c :: cs, .norm, cur, started =>
    if c = ' ' then
      if started then (tok cs .norm [] false).map (fun ws => cur :: ws)
      else tok cs .norm [] false
    else if c = '\'' then tok cs .sq cur true
    else if c = '"' then tok cs .dq cur true
    else if safeChar c then tok cs .norm (cur ++ [c]) true
    else none
  | c :: cs, .sq, cur, started =>
    if c = '\'' then tok cs .norm cur started
    else tok cs .sq (cur ++ [c]) started
  | c :: cs, .dq, cur, started =>
    if c = '"' then tok cs .norm cur started
    else if c = '$' || c = '\\' || c = Char.ofNat 96 then none
    else tok cs .dq (cur ++ [c]) started

/-- Run the simple-command reader model on a whole line. -/
def tokenize (s : String) : Option (List String) :=
  (tok s.toList .norm [] false).map (fun ws => ws.map String.mk)

/-- Character-level form of `' '.join(quoteC of each token)`, used to relate
`join_sp`/`quote` to the reader model. -/
def joinQuoted : List (List Char) → List Char
  | [] => []
  | [t] => quoteC t
  | t :: ts => quoteC t ++ ' ' :: joinQuoted ts

/-- Whether `p` is a prefix of `s` (on character lists). -/
def startsWithL : List Char → List Char → Bool
  | [], _ => true
  | _ :: _, [] => false
  | p :: ps, c :: cs => p = c && startsWithL ps cs

/-- Whether `p` occurs as a contiguous substring of `s` (character lists). -/
def hasSub (p : List Char) : List Char → Bool
  | [] => startsWithL p []
  | c :: cs => startsWithL p (c :: cs) || hasSub p cs

/-- `DockerTask._make_create_user_script`, with the Python format fields
expanded: an idempotent bootstrap that creates a group and user with the
given numeric gid and uid if absent and grants passwordless sudo. -/
def make_create_user_script (user_name : String) (uid gid : Nat) : String :=
  "#!/bin/bash\nid -u " ++ user_name ++ "\nif [ $? != 0 ]; then\n  set -e\n  groupadd --gid " ++
  toString gid ++ " " ++ user_name ++ "\n  useradd --uid " ++ toString uid ++ " --gid " ++
  toString gid ++ " --create-home " ++ user_name ++ "\n  echo \"" ++ user_name ++
  "    ALL=(ALL) NOPASSWD: ALL\" >> /etc/sudoers\nfi\n"

/-- An event observed by the drain loop of `DockerTask.execute` at its
suspension point (the blocking `next` on the output iterator): either the
next output chunk arrives, or a `KeyboardInterrupt` is delivered while
waiting there. -/
inductive StreamEvent where
  | line : String → StreamEvent
  | interrupt : StreamEvent

/-- How the session's output iterator finally ends: by exhaustion (the
session exited with status 0) or by `sh.ErrorReturnCode` carrying the
session's own nonzero exit code. -/
inductive SessionEnd where
  | clean : SessionEnd
  | errorReturn : Int → SessionEnd

/-- Result of the drain loop: the chunks written to stdout in order, the
strings the interrupt handler put on the input queue, and the returned
exit code. -/
structure DrainResult where
  written : List String
  injected : List String
  code : Int
deriving DecidableEq

/-- The `while True: try: for l in command_it: ... except KeyboardInterrupt`
loop of `DockerTask.execute`: each arriving chunk is written and flushed; a
`KeyboardInterrupt` puts the `"\x03"` control byte on `in_queue` and
re-enters the for-loop over the SAME iterator (nothing already consumed is
re-read and nothing remaining is dropped); exhaustion returns 0;
`sh.ErrorReturnCode` is caught outside the loop and its exit code
returned. -/
def drain_loop : List StreamEvent → SessionEnd → DrainResult
  | [], .clean => ⟨[], [], 0⟩
  | [], .errorReturn c => ⟨[], [], c⟩
  | .line s :: es, e =>
    let r := drain_loop es e
    ⟨s :: r.written, r.injected, r.code⟩
  | .interrupt :: es, e =>
    let r := drain_loop es e
    ⟨r.written, "\x03" :: r.injected, r.code⟩

/-- The output chunks carried by an event list, in arrival order. -/
def outputLines : List StreamEvent → List String
  | [] => []
  | .line s :: es => s :: outputLines es
  | .interrupt :: es => outputLines es

/-- The number of interrupts delivered in an event list. -/
def countInterrupts : List StreamEvent → Nat
  | [] => 0
  | .line _ :: es => countInterrupts es
  | .interrupt :: es => countInterrupts es + 1

/-- The exit code determined by the session's own termination. -/
def endCode : SessionEnd → Int
  | .clean => 0
  | .errorReturn c => c

/-- A run of `DockerTask.execute` together with `_prepare_user`, abstracted
over the container: whether the user-provisioning bootstrap was executed,
the user passed to the session, the input lines actually fed to the session,
and the exit code `execute` returns. -/
structure SessionRun where
  bootstrapRan : Bool
  user : Option String
  fed : List String
  code : Int
deriving DecidableEq

/-- `DockerTask.execute` composed with `_prepare_user`.  `bootstrapCode`
abstracts the bootstrap command's exit status (`_prepare_user` raises
`sh.ErrorReturnCode` when it is nonzero, which `execute` catches and
returns before `_make_bash` is ever called); `sessionCode` abstracts the
session's own exit status.  With `default_user` set, `_prepare_user` returns
`None` at once: no bootstrap runs and no user is passed.  Otherwise the
bootstrap runs first; on success the session runs as `uid:gid` and its own
code is the result. -/
def docker_execute (default_user : Bool) (uid gid : Nat) (cs : List Cmd)
    (bootstrapCode sessionCode : Int) : SessionRun :=
  if default_user then ⟨false, none, make_bash cs, sessionCode⟩
  else if bootstrapCode ≠ 0 then ⟨true, none, [], bootstrapCode⟩
  else ⟨true, some (toString uid ++ ":" ++ toString gid), make_bash cs, sessionCode⟩

/-- Association-list lookup, modelling a Python dict read (`d[k]`). -/
def lookupA {α : Type} : List (String × α) → String → Option α
  | [], _ => none
  | (k', v) :: rest, k => if k' = k then some v else lookupA rest k

/-- Association-list update, modelling a Python dict assignment
(`d[k] = v`): replace the value in place when the key is present, append
otherwise. -/
def upsert : List (String × String) → String → String → List (String × String)
  | [], k, v => [(k, v)]
  | (k', v') :: rest, k, v =>
    if k' = k then (k, v) :: rest else (k', v') :: upsert rest k v

/-- The child environment built by `call_command`: a copy of `os.environ`
with `PWD` overridden when a working directory is given. -/
def child_env (environ : List (String × String)) (cwd : Option String) :
    List (String × String) :=
  match cwd with
  | some d => upsert environ "PWD" d
  | none => environ

/-- Outcome of `call_command`: a returned exit code, or the uncaught
`StopIteration` that `next` raises on an empty flattened command. -/
inductive CallOutcome where
  | exitCode : Int → CallOutcome
  | raisedStopIteration : CallOutcome
deriving DecidableEq

/-- `call_command`: copy `os.environ` into `env`, override `PWD` when `cwd`
is given, flatten the command with `_unroll` and take the first token as the
program (`next` raises `StopIteration` when there is none), then spawn and
stream; `childExit` abstracts the spawned process's exit status (0 on normal
completion, the `sh.ErrorReturnCode` code otherwise).  The result carries
(outcome, environment given to the child, `os.environ` after the call) —
the engine's own environment is never written. -/
def call_command (cmd : Cmd) (environ : List (String × String))
    (cwd : Option String) (childExit : Int) :
    CallOutcome × List (String × String) × List (String × String) :=
  let env := child_env environ cwd
  match unroll cmd with
  | [] => (.raisedStopIteration, env, environ)
  | _ :: _ => (.exitCode childExit, env, environ)

/-- `execute_task` on a plain command-list task: run the commands in order
via `call_command` and return the first nonzero exit code, or 0 when all
succeed (`codes` abstracts each command's exit code). -/
def execute_task_commands : List Int → Int
  | [] => 0
  | c :: cs => if c ≠ 0 then c else execute_task_commands cs

/-- `main`'s outcome: a value returned by the function, or the uncaught
`KeyError` raised by the `data['workflows'][workflow_id]` subscript. -/
inductive MainOutcome where
  | exitCode : Int → MainOutcome
  | raisedKeyError : MainOutcome
deriving DecidableEq

/-- `main`'s task loop: the tasks' exit codes in order; on the first nonzero
one, print the error banner and return 1.  The second component counts how
many tasks were started. -/
def main_loop : List Int → Int × Nat
  | [] => (0, 0)
  | c :: cs =>
    if c ≠ 0 then (1, 1)
    else
      let r := main_loop cs
      (r.1, r.2 + 1)

/-- `main`: a missing `.ci.yaml` prints an error and returns -1 before
anything is loaded or run; with the file present, an identifier absent from
the `workflows` table raises `KeyError` at the head of the task loop, before
any task runs; otherwise the task loop runs.  Each task is abstracted by its
`execute_task` exit code.  The second component counts tasks started. -/
def main_run (workPathFound : Bool) (workflows : List (String × List Int))
    (workflow_id : String) : MainOutcome × Nat :=
  if workPathFound then
    match lookupA workflows workflow_id with
    | none => (.raisedKeyError, 0)
    | some tasks =>
      let r := main_loop tasks
      (.exitCode r.1, r.2)
  else (.exitCode (-1), 0)

/-! ### Lemmas about the shell reader model -/

theorem safeChar_ne_space {c : Char} (h : safeChar c = true) : ¬(c = ' ') := by
  intro e; subst e; exact absurd h (by decide)

theorem safeChar_ne_squote {c : Char} (h : safeChar c = true) : ¬(c = '\'') := by
  intro e; subst e; exact absurd h (by decide)

theorem safeChar_ne_dquote {c : Char} (h : safeChar c = true) : ¬(c = '"') := by
  intro e; subst e; exact absurd h (by decide)

theorem tok_norm_space_t (cs cur) :
    tok (' ' :: cs) .norm cur true = (tok cs .norm [] false).map (fun ws => cur :: ws) := rfl

theorem tok_norm_open_sq (cs cur st) : tok ('\'' :: cs) .norm cur st = tok cs .sq cur true := rfl

theorem tok_norm_open_dq (cs cur st) : tok ('"' :: cs) .norm cur st = tok cs .dq cur true := rfl

theorem tok_sq_close (cs cur st) : tok ('\'' :: cs) .sq cur st = tok cs .norm cur st := rfl

theorem tok_sq_chr {c : Char} (h : ¬(c = '\'')) (cs cur st) :
    tok (c :: cs) .sq cur st = tok cs .sq (cur ++ [c]) st := by
  simp [tok, h]

theorem tok_dq_close (cs cur st) : tok ('"' :: cs) .dq cur st = tok cs .norm cur st := rfl

theorem tok_dq_sq (cs cur st) : tok ('\'' :: cs) .dq cur st = tok cs .dq (cur ++ ['\'']) st := rfl

theorem tok_cons_safe {c : Char} (h : safeChar c = true) (cs cur st) :
    tok (c :: cs) .norm cur st = tok cs .norm (cur ++ [c]) true := by
  simp [tok, safeChar_ne_space h, safeChar_ne_squote h, safeChar_ne_dquote h, h]

theorem tok_escBody : ∀ (s cs cur : List Char),
    tok (s.flatMap escQuote ++ cs) .sq cur true = tok cs .sq (cur ++ s) true := by
  intro s
  induction s with
  | nil => intro cs cur; simp
  | cons c s ih =>
    intro cs cur
    by_cases hc : c = '\''
    · subst hc
      have e : ('\'' :: s).flatMap escQuote ++ cs
          = '\'' :: '"' :: '\'' :: '"' :: '\'' :: (s.flatMap escQuote ++ cs) := by
        simp [escQuote]
      rw [e, tok_sq_close, tok_norm_open_dq, tok_dq_sq, tok_dq_close, tok_norm_open_sq, ih]
      simp
    · have e : (c :: s).flatMap escQuote ++ cs = c :: (s.flatMap escQuote ++ cs) := by
        simp [escQuote, hc]
      rw [e, tok_sq_chr hc, ih]
      simp

theorem tok_safe_run : ∀ (s : List Char), s.all safeChar = true → ¬(s = []) →
    ∀ cs cur st, tok (s ++ cs) .norm cur st = tok cs .norm (cur ++ s) true := by
  intro s
  induction s with
  | nil => intro _ h; exact absurd rfl h
  | cons c s ih =>
    intro hall _ cs cur st
    rw [List.all_cons, Bool.and_eq_true] at hall
    rw [List.cons_append, tok_cons_safe hall.1]
    cases s with
    | nil => simp
    | cons d s' =>
      rw [ih hall.2 (by simp)]
      simp

theorem tok_quoteC : ∀ (s cs cur : List Char) (st : Bool),
    tok (quoteC s ++ cs) .norm cur st = tok cs .norm (cur ++ s) true := by
  intro s cs cur st
  by_cases h0 : s = []
  · subst h0
    show tok (quoteC [] ++ cs) .norm cur st = tok cs .norm (cur ++ []) true
    rw [show quoteC [] = ['\'', '\''] from rfl]
    rw [List.cons_append, List.cons_append, tok_norm_open_sq, tok_sq_close, List.append_nil,
      List.nil_append]
  · by_cases h1 : s.all safeChar = true
    · rw [show quoteC s = s by simp [quoteC, h0, h1]]
      exact tok_safe_run s h1 h0 cs cur st
    · rw [show quoteC s = '\'' :: (s.flatMap escQuote ++ ['\'']) by simp [quoteC, h0, h1]]
      rw [List.cons_append, List.append_assoc, List.singleton_append, tok_norm_open_sq,
        tok_escBody, tok_sq_close]

theorem tok_joinQuoted : ∀ ts : List (List Char),
    tok (joinQuoted ts) .norm [] false = some ts := by
  intro ts
  induction ts with
  | nil => rfl
  | cons t ts ih =>
    cases ts with
    | nil =>
      show tok (joinQuoted [t]) .norm [] false = some [t]
      rw [show joinQuoted [t] = quoteC t from rfl, ← List.append_nil (quoteC t), tok_quoteC]
      simp [tok]
    | cons t' ts' =>
      show tok (quoteC t ++ ' ' :: joinQuoted (t' :: ts')) .norm [] false = some (t :: t' :: ts')
      rw [tok_quoteC, List.nil_append, tok_norm_space_t, ih]
      rfl

theorem toList_join_sp_quote : ∀ ts : List String,
    (join_sp (ts.map quote)).toList = joinQuoted (ts.map String.toList) := by
  intro ts
  induction ts with
  | nil => rfl
  | cons t ts ih =>
    cases ts with
    | nil => rfl
    | cons t' ts' =>
      show ((quote t ++ " ") ++ join_sp ((t' :: ts').map quote)).data
          = quoteC t.toList ++ ' ' :: joinQuoted ((t' :: ts').map String.toList)
      rw [String.data_append, String.data_append,
        show (join_sp ((t' :: ts').map quote)).data
            = joinQuoted ((t' :: ts').map String.toList) from ih,
        List.append_assoc]
      rfl

theorem tokenize_join_sp_quote (ts : List String) :
    tokenize (join_sp (ts.map quote)) = some ts := by
  show (tok (join_sp (ts.map quote)).toList .norm [] false).map (fun ws => ws.map String.mk)
      = some ts
  rw [toList_join_sp_quote, tok_joinQuoted]
  show some ((ts.map String.toList).map String.mk) = some ts
  rw [List.map_map]
  exact congrArg some (List.map_id ts)

theorem unroll_leaf_seq : ∀ ts : List String,
    unroll (Cmd.seq (ts.map Cmd.leaf)) = ts := by
  intro ts
  induction ts with
  | nil => rfl
  | cons t ts ih =>
    show unrollList (Cmd.leaf t :: ts.map Cmd.leaf) = t :: ts
    rw [unrollList]
    show unroll (Cmd.leaf t) ++ unrollList (ts.map Cmd.leaf) = t :: ts
    rw [unroll]
    show [t] ++ unroll (Cmd.seq (ts.map Cmd.leaf)) = t :: ts
    rw [ih]
    rfl

/-! ### Lemmas about the drain loop -/

theorem drain_written : ∀ (es : List StreamEvent) (e : SessionEnd),
    (drain_loop es e).written = outputLines es := by
  intro es e
  induction es with
  | nil => cases e <;> rfl
  | cons ev es ih =>
    cases ev with
    | line s =>
      show s :: (drain_loop es e).written = s :: outputLines es
      rw [ih]
    | interrupt =>
      show (drain_loop es e).written = outputLines es
      exact ih

theorem drain_injected : ∀ (es : List StreamEvent) (e : SessionEnd),
    (drain_loop es e).injected = List.replicate (countInterrupts es) "\x03" := by
  intro es e
  induction es with
  | nil => cases e <;> rfl
  | cons ev es ih =>
    cases ev with
    | line s =>
      show (drain_loop es e).injected = List.replicate (countInterrupts es) "\x03"
      exact ih
    | interrupt =>
      show "\x03" :: (drain_loop es e).injected
          = List.replicate (countInterrupts es + 1) "\x03"
      rw [ih, List.replicate_succ]

theorem drain_code : ∀ (es : List StreamEvent) (e : SessionEnd),
    (drain_loop es e).code = endCode e := by
  intro es e
  induction es with
  | nil => cases e <;> rfl
  | cons ev es ih => cases ev <;> exact ih

/-! ### Lemmas about the environment dictionary -/

theorem lookupA_upsert_self : ∀ (es : List (String × String)) (k v : String),
    lookupA (upsert es k v) k = some v := by
  intro es k v
  induction es with
  | nil => simp [upsert, lookupA]
  | cons e es ih =>
    obtain ⟨k', v'⟩ := e
    by_cases h : k' = k
    · subst h; simp [upsert, lookupA]
    · simp [upsert, lookupA, h, ih]

theorem lookupA_upsert_ne : ∀ (es : List (String × String)) (k v q : String), ¬(q = k) →
    lookupA (upsert es k v) q = lookupA es q := by
  intro es k v q hq
  have hk : ¬(k = q) := fun h => hq h.symm
  induction es with
  | nil => simp [upsert, lookupA, hk]
  | cons e es ih =>
    obtain ⟨k', v'⟩ := e
    by_cases h : k' = k
    · subst h; simp [upsert, lookupA, hk]
    · by_cases h2 : k' = q <;> simp [upsert, lookupA, h, h2, hq, ih]

/-! ### Claims -/

/-- C1 (counterexample): for the workflow `[A, B, C]` with exit codes
`[0, 3, 0]`, `main` runs exactly the first two tasks and returns 1 — not 3,
the first nonzero task exit code, as the claim states. -/
theorem workflow_result_is_one_not_task_code :
    main_run true [("w", [0, 3, 0])] "w" = (MainOutcome.exitCode 1, 2)
    ∧ ¬(main_run true [("w", [0, 3, 0])] "w" = (MainOutcome.exitCode 3, 2)) := by
  decide

/-- C1 (amended): for every workflow `[A, B, C]` in which task A succeeds and
task B exits nonzero, `main` runs A fully, runs B, never starts C, and
returns the constant failure code 1 (not B's exit code). -/
theorem workflow_fail_fast (a b c : Int) (ha : a = 0) (hb : ¬(b = 0)) :
    main_run true [("w", [a, b, c])] "w" = (MainOutcome.exitCode 1, 2) := by
  subst ha
  simp [main_run, lookupA, main_loop, hb]

/-- Witness for `workflow_fail_fast` at the concrete workflow `[0, 3, 5]`. -/
theorem workflow_fail_fast_witness :
    main_run true [("w", [0, 3, 5])] "w" = (MainOutcome.exitCode 1, 2) :=
  workflow_fail_fast 0 3 5 rfl (by decide)

/-- C2: for every interleaving of output chunks and interrupts, and however
the session itself ends, the drain loop of `DockerTask.execute` writes every
chunk in order (none is lost to an interrupt), puts exactly one `"\x03"`
control byte (character 0x03) on the session's input queue per interrupt
(for arbitrarily many interrupts), never kills the session, and returns the
session's own exit code. -/
theorem interrupt_forwarding (es : List StreamEvent) (e : SessionEnd) :
    (drain_loop es e).written = outputLines es
    ∧ (drain_loop es e).injected = List.replicate (countInterrupts es) "\x03"
    ∧ (drain_loop es e).code = endCode e
    ∧ "\x03" = String.mk [Char.ofNat 3] :=
  ⟨drain_written es e, drain_injected es e, drain_code es e, by decide⟩

/-- C3 (the code evaluated at the failing input): serializing
`['false', !and ['echo', 'ok']]` yields `false '&&' echo ok`, in which the
`&&` token is single-quoted; a shell reads that line as ONE simple command
whose argv contains the literal word `&&` (second conjunct), not as two
commands joined by the `&&` operator — the unquoted form, by contrast, is
not a plain word list at all (third conjunct).  The same happens to `|`. -/
theorem operator_tokens_are_quoted :
    serialize_command (Cmd.seq [Cmd.leaf "false",
        and_command_constructor [Cmd.leaf "echo", Cmd.leaf "ok"]]) = "false '&&' echo ok"
    ∧ tokenize "false '&&' echo ok" = some ["false", "&&", "echo", "ok"]
    ∧ tokenize "false && echo ok" = none
    ∧ serialize_command (Cmd.seq [Cmd.leaf "cat",
        pipe_command_constructor [Cmd.leaf "wc", Cmd.leaf "-l"]]) = "cat '|' wc -l"
    ∧ tokenize "cat '|' wc -l" = some ["cat", "|", "wc", "-l"] := by
  decide

/-- C4: serialization quotes every token individually, so that a shell
reading the resulting line recovers exactly the original program and
argument strings — for ALL argument strings, including those made of shell
metacharacters (spaces, quotes, ampersands, pipes, dollar signs). -/
theorem escaping_preserves_argument_boundaries (prog : String) (args : List String) :
    tokenize (serialize_command (Cmd.seq ((prog :: args).map Cmd.leaf)))
      = some (prog :: args) := by
  show tokenize (join_sp ((unroll (Cmd.seq ((prog :: args).map Cmd.leaf))).map quote))
      = some (prog :: args)
  rw [unroll_leaf_seq]
  exact tokenize_join_sp_quote (prog :: args)

/-- C5: the session input is exactly the quoted `set -e` line, then one
serialized line per command of `cs`, in order, then the quoted `exit` line;
the first line parses as the command `set -e` and the last as `exit`, and
every line is newline-terminated. -/
theorem session_script_layout (cs : List Cmd) :
    make_bash cs
      = "'set' '-e'\n" :: cs.map (fun c => serialize_command c ++ "\n") ++ ["'exit'\n"]
    ∧ tokenize "'set' '-e'" = some ["set", "-e"]
    ∧ tokenize "'exit'" = some ["exit"]
    ∧ ∀ l ∈ make_bash cs, l.data.getLast? = some '\n' := by
  refine ⟨rfl, by decide, by decide, ?_⟩
  intro l hl
  have hl' : l = "'set' '-e'\n"
      ∨ l ∈ cs.map (fun c => serialize_command c ++ "\n") ++ ["'exit'\n"] :=
    List.mem_cons.mp hl
  rcases hl' with h | hl'
  · subst h; decide
  · rcases List.mem_append.mp hl' with hm | hs
    · rcases List.mem_map.mp hm with ⟨c, hc, h⟩
      subst h
      show ((serialize_command c ++ "\n").data).getLast? = some '\n'
      rw [String.data_append, show ("\n" : String).data = ['\n'] from rfl,
        List.getLast?_concat]
    · have h : l = "'exit'\n" := by simpa using hs
      subst h; decide

/-- Witness for `session_script_layout` at the empty command list. -/
theorem session_script_layout_witness :
    tokenize "'set' '-e'" = some ["set", "-e"]
    ∧ ("'exit'\n" : String).data.getLast? = some '\n' :=
  ⟨(session_script_layout []).2.1,
   (session_script_layout []).2.2.2 "'exit'\n" (by decide)⟩

/-- C6: with `default_user` set, no bootstrap runs and no user is passed to
the session, whose own code is returned; otherwise the bootstrap runs first,
its failure returns the bootstrap's exit code before anything is fed to a
session, and on its success the session runs as `uid:gid` and only the
session's own code is returned. -/
theorem user_provisioning_policy (du : Bool) (uid gid : Nat) (cs : List Cmd) (b s : Int) :
    (du = true → docker_execute du uid gid cs b s = ⟨false, none, make_bash cs, s⟩)
    ∧ (du = false → ¬(b = 0) → docker_execute du uid gid cs b s = ⟨true, none, [], b⟩)
    ∧ (du = false → b = 0 →
        docker_execute du uid gid cs b s
          = ⟨true, some (toString uid ++ ":" ++ toString gid), make_bash cs, s⟩) := by
  refine ⟨fun h => ?_, fun h hb => ?_, fun h hb => ?_⟩ <;> subst h <;>
    simp [docker_execute, *]

/-- Witness for `user_provisioning_policy`: a failed bootstrap (exit 7)
aborts with 7 and nothing fed; with `default_user`, no bootstrap at all. -/
theorem user_provisioning_policy_witness :
    docker_execute false 1000 1000 [] 7 0 = ⟨true, none, [], 7⟩
    ∧ docker_execute true 1000 1000 [] 7 5 = ⟨false, none, make_bash [], 5⟩ :=
  ⟨(user_provisioning_policy false 1000 1000 [] 7 0).2.1 rfl (by decide),
   (user_provisioning_policy true 1000 1000 [] 7 5).1 rfl⟩

/-- C7 (counterexample): with the definition file present but the workflow
id absent from the table, `main` does not return a sentinel code at all —
the subscript raises an uncaught `KeyError` (before any task runs). -/
theorem missing_workflow_raises_keyerror :
    main_run true [("w", [0])] "deploy" = (MainOutcome.raisedKeyError, 0)
    ∧ ¬(main_run true [("w", [0])] "deploy" = (MainOutcome.exitCode (-1), 0)) := by
  decide

/-- C7 (amended): a missing definition file makes `main` return the sentinel
-1 — distinct from every value in 0..255 — before any task runs; an
unresolved workflow identifier also fails before any task runs, but by an
uncaught `KeyError`, not by returning a sentinel code. -/
theorem config_error_channels (wfs : List (String × List Int)) (wid : String) :
    main_run false wfs wid = (MainOutcome.exitCode (-1), 0)
    ∧ (lookupA wfs wid = none → main_run true wfs wid = (MainOutcome.raisedKeyError, 0))
    ∧ ∀ c : Int, 0 ≤ c → c ≤ 255 → ¬((-1 : Int) = c) := by
  refine ⟨rfl, fun h => ?_, fun c h0 h255 hc => ?_⟩
  · simp [main_run, h]
  · omega

/-- Witness for `config_error_channels` on a one-workflow table. -/
theorem config_error_channels_witness :
    main_run false [("w", [0])] "w" = (MainOutcome.exitCode (-1), 0)
    ∧ main_run true [("w", [0])] "x" = (MainOutcome.raisedKeyError, 0)
    ∧ ¬((-1 : Int) = 200) :=
  ⟨(config_error_channels [("w", [0])] "w").1,
   (config_error_channels [("w", [0])] "x").2.1 (by decide),
   (config_error_channels [("w", [0])] "x").2.2 200 (by decide) (by decide)⟩

/-- C8 (counterexample): the session script for the command `echo hi` is
exactly the `set -e` line, the command line, and the `exit` line; its first
line is the quoted `set -e` command, and NO line contains the shell's own
process-id expansion `$$` — the interpreter is never told to announce its
process identifier, so no such announcement precedes command output. -/
theorem no_pid_announcement :
    make_bash [Cmd.seq [Cmd.leaf "echo", Cmd.leaf "hi"]]
      = ["'set' '-e'\n", "echo hi\n", "'exit'\n"]
    ∧ (make_bash [Cmd.seq [Cmd.leaf "echo", Cmd.leaf "hi"]]).head? = some "'set' '-e'\n"
    ∧ hasSub "$$".toList "'set' '-e'\n".toList = false
    ∧ hasSub "$$".toList "echo hi\n".toList = false
    ∧ hasSub "$$".toList "'exit'\n".toList = false := by
  decide

/-- C8 (amended): for every command list, the first line fed to the
interpreter is the quoted `set -e` command — which parses as `set -e` and
contains no process-id expansion — not a line announcing the interpreter's
process identifier. -/
theorem first_line_is_set_e (cs : List Cmd) :
    (make_bash cs).head? = some "'set' '-e'\n"
    ∧ tokenize "'set' '-e'" = some ["set", "-e"]
    ∧ hasSub "$$".toList "'set' '-e'\n".toList = false :=
  ⟨rfl, by decide, by decide⟩

/-- C9: with a working directory given, the child of `call_command` is
spawned with a copy of the engine's environment in which exactly `PWD` is
overridden (every other key reads unchanged); `os.environ` itself is the
same after the call, and with no working directory the child environment is
the unmodified copy. -/
theorem env_overlay (cmd : Cmd) (environ : List (String × String)) (d : String) (ce : Int) :
    (call_command cmd environ (some d) ce).2.1 = upsert environ "PWD" d
    ∧ lookupA (call_command cmd environ (some d) ce).2.1 "PWD" = some d
    ∧ (∀ k, ¬(k = "PWD") →
        lookupA (call_command cmd environ (some d) ce).2.1 k = lookupA environ k)
    ∧ (call_command cmd environ (some d) ce).2.2 = environ
    ∧ (call_command cmd environ none ce).2.1 = environ
    ∧ (call_command cmd environ none ce).2.2 = environ := by
  have h2 : ∀ cw : Option String,
      (call_command cmd environ cw ce).2 = (child_env environ cw, environ) := by
    intro cw
    cases hu : unroll cmd with
    | nil => simp [call_command, hu]
    | cons a l => simp [call_command, hu]
  have e1 : (call_command cmd environ (some d) ce).2.1 = upsert environ "PWD" d :=
    congrArg Prod.fst (h2 (some d))
  refine ⟨e1, ?_, ?_, congrArg Prod.snd (h2 (some d)),
    congrArg Prod.fst (h2 none), congrArg Prod.snd (h2 none)⟩
  · rw [e1]; exact lookupA_upsert_self environ "PWD" d
  · intro k hk; rw [e1]; exact lookupA_upsert_ne environ "PWD" d k hk

/-- Witness for `env_overlay`, mirroring the spec's example: with
`cwd = /tmp/x` and an inherited `FOO=bar`, the child observes both, and the
engine's environment object is returned untouched. -/
theorem env_overlay_witness :
    lookupA (call_command (Cmd.leaf "make") [("FOO", "bar")] (some "/tmp/x") 0).2.1 "PWD"
      = some "/tmp/x"
    ∧ lookupA (call_command (Cmd.leaf "make") [("FOO", "bar")] (some "/tmp/x") 0).2.1 "FOO"
      = lookupA [("FOO", "bar")] "FOO"
    ∧ (call_command (Cmd.leaf "make") [("FOO", "bar")] (some "/tmp/x") 0).2.2
      = [("FOO", "bar")] :=
  ⟨(env_overlay (Cmd.leaf "make") [("FOO", "bar")] "/tmp/x" 0).2.1,
   (env_overlay (Cmd.leaf "make") [("FOO", "bar")] "/tmp/x" 0).2.2.1 "FOO" (by decide),
   (env_overlay (Cmd.leaf "make") [("FOO", "bar")] "/tmp/x" 0).2.2.2.1⟩

/-- C10: when the flattened command is non-empty, `call_command` extracts a
program and returns an exit code; when it is empty, the `next` call raises
an uncaught `StopIteration` and no exit code is returned; and a leaf command
always flattens to a non-empty token list. -/
theorem empty_flatten_raises (cmd : Cmd) (environ : List (String × String))
    (cwd : Option String) (ce : Int) :
    (¬(unroll cmd = []) → (call_command cmd environ cwd ce).1 = CallOutcome.exitCode ce)
    ∧ (unroll cmd = [] → (call_command cmd environ cwd ce).1 = CallOutcome.raisedStopIteration)
    ∧ (∀ s, ¬(unroll (Cmd.leaf s) = [])) := by
  refine ⟨fun h => ?_, fun h => ?_, fun s => by simp [unroll]⟩
  · cases hu : unroll cmd with
    | nil => exact absurd hu h
    | cons a l => simp [call_command, hu]
  · simp [call_command, h]

/-- Witness for `empty_flatten_raises`: a one-token command returns the
child's code, the empty list command raises `StopIteration`. -/
theorem empty_flatten_raises_witness :
    (call_command (Cmd.leaf "ls") [] none 0).1 = CallOutcome.exitCode 0
    ∧ (call_command (Cmd.seq []) [] none 3).1 = CallOutcome.raisedStopIteration :=
  ⟨(empty_flatten_raises (Cmd.leaf "ls") [] none 0).1 (by decide),
   (empty_flatten_raises (Cmd.seq []) [] none 3).2.1 (by decide)⟩

end AnCi
